import Mathlib

/-!
# QR code generator page (`src/app/tools/qr-code-generator/page.jsx`)

A shallow embedding of the React component `QRCodeGeneratorPage`: its state
cells, the browser timer queue used by `setTimeout` / `clearTimeout`, the
auto-generate effect with its dependency list, the event handlers and the
export operations.  Time is explicit: `advance dt` lets `dt` milliseconds
pass and runs every timer callback that has become due.

Conventions of the embedding:

* a state update and the render and effect run that follow it are one step;
* an `async` handler is one step, the outcome of each awaited platform call
  being an argument of the handler;
* a timer fires as soon as its delay has passed (`remaining ≤ dt`);
* what the page does to the browser (downloads, share calls, clipboard,
  `console.error`) is logged in the state, and `commits` counts the calls
  `setQRValue(inputText)`.
-/

namespace QRCodeGenerator

/-! ## Timers -/

/-- The two callbacks the page ever hands to `setTimeout`. -/
inductive Callback where
  /-- Line 30-32: `() => setQRValue(inputText)`, the closure keeps the
  `inputText` of the render that created it. -/
  | commit (text : String)
  /-- Line 86: `() => setToastMsg("")`. -/
  | dismiss
  deriving DecidableEq, Repr

/-- A pending browser timer: its handle, the milliseconds left until it is
due, and its callback. -/
structure Timer where
  id : Nat
  remaining : Nat
  callback : Callback
  deriving DecidableEq, Repr

/-- A file handed to the browser by a synthetic anchor click. -/
structure Download where
  name : String
  href : String
  deriving DecidableEq, Repr

/-- The component state together with the part of the browser it acts on. -/
structure State where
  /-- Line 15, `useLocalStorage("tool_qrcode_input", "")`. -/
  inputText : String
  /-- Line 16. -/
  qrValue : String
  /-- Line 17. -/
  usageModalOpen : Bool
  /-- Line 18. -/
  toastMsg : String
  /-- Line 19. -/
  qrColor : String
  /-- Line 20. -/
  qrBgColor : String
  /-- Line 21. -/
  qrSize : Int
  /-- Line 22. -/
  autoGenerate : Bool
  /-- Pending timers of the browser, oldest first. -/
  timers : List Timer
  /-- The handle the next `setTimeout` returns. -/
  nextId : Nat
  /-- The cleanup returned by the last run of the effect of lines 28-35:
  `some h` stands for `() => clearTimeout(h)`, `none` for no cleanup. -/
  cleanup : Option Nat
  /-- Ghost counter: how often `setQRValue(inputText)` has run (lines 31, 39). -/
  commits : Nat
  /-- Files downloaded so far (`link.click()`), oldest first. -/
  downloads : List Download
  /-- How often `navigator.share` has been invoked. -/
  shareCalls : Nat
  /-- Messages written with `console.error`, oldest first. -/
  console : List String
  /-- Text last written to the clipboard with `writeText`. -/
  clipboardText : Option String
  /-- Number of images written to the clipboard. -/
  clipboardImages : Nat
  deriving DecidableEq, Repr

/-- The delay of the auto-generate timer, line 32. -/
def debounceMs : Nat := 500

/-- The delay of the toast dismissal timer, line 86. -/
def toastMs : Nat := 1500

/-- The call `setTimeout(cb, delay)`: queue a timer under a fresh handle. -/
def setTimeout (cb : Callback) (delay : Nat) (s : State) : State :=
  { s with timers := s.timers ++ [⟨s.nextId, delay, cb⟩], nextId := s.nextId + 1 }

/-- The call `clearTimeout(h)`: drop the timer with handle `h`, if still pending. -/
def clearTimeout (h : Nat) (s : State) : State :=
  { s with timers := s.timers.filter (fun t => t.id != h) }

/-- Whether a timer carries the auto-generate callback. -/
def Timer.isCommit (t : Timer) : Bool :=
  match t.callback with
  | .commit _ => true
  | .dismiss => false

/-- Whether a timer carries the toast dismissal callback. -/
def Timer.isDismiss (t : Timer) : Bool :=
  match t.callback with
  | .commit _ => false
  | .dismiss => true

/-- Run one timer callback. -/
def fire (s : State) (t : Timer) : State :=
  match t.callback with
  | .commit text => { s with qrValue := text, commits := s.commits + 1 }
  | .dismiss => { s with toastMsg := "" }

/-- Run the callbacks of a list of timers in order. -/
def fireAll (l : List Timer) (s : State) : State :=
  l.foldl fire s

/-- The timers due within `dt` milliseconds, earliest deadline first and, for
equal deadlines, oldest first. -/
def dueTimers (dt : Nat) (s : State) : List Timer :=
  (s.timers.filter (fun t => decide (t.remaining ≤ dt))).insertionSort
    (fun a b => a.remaining ≤ b.remaining)

/-- The timers still pending after `dt` milliseconds. -/
def laterTimers (dt : Nat) (s : State) : List Timer :=
  (s.timers.filter (fun t => !decide (t.remaining ≤ dt))).map
    (fun t => { t with remaining := t.remaining - dt })

/-- Let `dt` milliseconds pass with no user event: every timer that has become
due leaves the queue and its callback runs. -/
def advance (dt : Nat) (s : State) : State :=
  fireAll (dueTimers dt s) { s with timers := laterTimers dt s }

/-! ## The auto-generate effect, lines 27-35 -/

/-- The body of the effect: with auto-generate on, arm a 500 ms timer that
commits the current input and return its cancellation as cleanup. -/
def runEffect (s : State) : State :=
  if s.autoGenerate then
    { setTimeout (.commit s.inputText) debounceMs s with cleanup := some s.nextId }
  else
    { s with cleanup := none }

/-- Run the cleanup of the previous effect run. -/
def runCleanup (s : State) : State :=
  match s.cleanup with
  | some h => clearTimeout h s
  | none => s

/-- A render after a state update from `old` to `new`: the effect is re-run
(cleanup first) exactly when a dependency of `[inputText, autoGenerate]`
has changed. -/
def rerender (old new : State) : State :=
  if old.inputText ≠ new.inputText ∨ old.autoGenerate ≠ new.autoGenerate then
    runEffect (runCleanup new)
  else
    new

/-- The component right after mounting, lines 15-23 and the first run of the
effect.  `stored` is the value `useLocalStorage` yields for the input. -/
def mount (stored : String) : State :=
  runEffect
    { inputText := stored, qrValue := "", usageModalOpen := false, toastMsg := "",
      qrColor := "#000000", qrBgColor := "#ffffff", qrSize := 128,
      autoGenerate := false, timers := [], nextId := 0, cleanup := none,
      commits := 0, downloads := [], shareCalls := 0, console := [],
      clipboardText := none, clipboardImages := 0 }

/-! ## Event handlers -/

/-- Line 195: `onChange={(e) => setInputText(e.target.value)}`. -/
def setInputText (text : String) (s : State) : State :=
  rerender s { s with inputText := text }

/-- Line 207: `onChange={(e) => setAutoGenerate(e.target.checked)}`. -/
def setAutoGenerate (b : Bool) (s : State) : State :=
  rerender s { s with autoGenerate := b }

/-- Lines 38-40. -/
def generateQRCode (s : State) : State :=
  rerender s { s with qrValue := s.inputText, commits := s.commits + 1 }

/-- Lines 43-49. -/
def resetFields (s : State) : State :=
  rerender s
    { s with inputText := "", qrValue := "", qrColor := "#000000",
             qrBgColor := "#ffffff", qrSize := 128 }

/-- Line 235. -/
def setQrColor (c : String) (s : State) : State :=
  rerender s { s with qrColor := c }

/-- Line 246. -/
def setQrBgColor (c : String) (s : State) : State :=
  rerender s { s with qrBgColor := c }

/-- Line 262: `setQrSize(Number(e.target.value))`. -/
def setQrSize (n : Int) (s : State) : State :=
  rerender s { s with qrSize := n }

/-- Lines 181 and 355. -/
def setUsageModalOpen (b : Bool) (s : State) : State :=
  rerender s { s with usageModalOpen := b }

/-- Lines 84-87: show the message and schedule its dismissal. -/
def showToast (msg : String) (s : State) : State :=
  setTimeout .dismiss toastMs (rerender s { s with toastMsg := msg })

/-! ## Export operations -/

/-- How an awaited promise settles. -/
inductive Settled (α : Type) where
  | resolved (value : α)
  | rejected
  deriving DecidableEq, Repr

/-- Whether `qrRef.current` is set: the `div` carrying the ref is rendered
only under `{qrValue && ...}`, lines 277-283. -/
def qrRefCurrent (s : State) : Bool :=
  s.qrValue != ""

/-- Lines 90-99; `toPng` is how `domtoimage.toPng` settles.  `none` is `null`. -/
def exportQRCodeAsPNG (toPng : Settled String) (s : State) : Option String × State :=
  if !qrRefCurrent s then (none, s)
  else
    match toPng with
    | .resolved dataUrl => (some dataUrl, s)
    | .rejected =>
        (none, { s with console := s.console ++ ["Error converting to PNG"] })

/-- JavaScript truthiness of the value returned by `exportQRCodeAsPNG`. -/
def truthy : Option String → Bool
  | some u => u != ""
  | none => false

/-- Lines 102-111. -/
def downloadQRCode (toPng : Settled String) (s : State) : State :=
  let r := exportQRCodeAsPNG toPng s
  if truthy r.1 then
    showToast "PNG downloaded!"
      { r.2 with downloads := r.2.downloads ++ [⟨"qr-code.png", r.1.getD ""⟩] }
  else r.2

/-- Lines 63-81; `svg` is the serialised `svg` element found under the ref,
if there is one. -/
def downloadQRCodeSVG (svg : Option String) (s : State) : State :=
  if qrRefCurrent s then
    match svg with
    | some svgStr =>
        showToast "SVG downloaded!"
          { s with downloads := s.downloads ++ [⟨"qr-code.svg", svgStr⟩] }
    | none => s
  else s

/-- Lines 52-60; `writeOk` tells whether `clipboard.writeText` resolves. -/
def copyInputText (writeOk : Bool) (s : State) : State :=
  if writeOk then
    showToast "Input text copied!" { s with clipboardText := some s.inputText }
  else
    showToast "Copy text failed." { s with console := s.console ++ ["Copy text failed"] }

/-- Lines 114-129; `writeOk` tells whether fetching the data URL and the
clipboard write all resolve. -/
def copyQRCode (toPng : Settled String) (writeOk : Bool) (s : State) : State :=
  let r := exportQRCodeAsPNG toPng s
  if truthy r.1 then
    if writeOk then
      showToast "Image copied!" { r.2 with clipboardImages := r.2.clipboardImages + 1 }
    else
      showToast "Copy failed." { r.2 with console := r.2.console ++ ["Failed to copy image"] }
  else r.2

/-- What the platform does during a share. -/
structure ShareEnv where
  /-- Whether `fetch(dataUrl)` and `res.blob()` resolve. -/
  fetchOk : Bool
  /-- The `navigator.canShare` capability: `none` when the platform has none,
  `some b` when it answers `b` for the file. -/
  canShare : Option Bool
  /-- Whether `navigator.share` resolves; it rejects on an error and when the
  user cancels. -/
  shareResolves : Bool
  deriving DecidableEq, Repr

/-- Lines 132-153. -/
def shareQRCode (toPng : Settled String) (env : ShareEnv) (s : State) : State :=
  let r := exportQRCodeAsPNG toPng s
  if truthy r.1 then
    if !env.fetchOk then
      { r.2 with console := r.2.console ++ ["Share failed"] }
    else if env.canShare == some true then
      let s1 := { r.2 with shareCalls := r.2.shareCalls + 1 }
      if env.shareResolves then showToast "Shared!" s1
      else { s1 with console := s1.console ++ ["Share failed"] }
    else
      showToast "Sharing not supported." r.2
  else r.2

/-- What is drawn for the preview, lines 277-289: nothing for an empty
committed value, else the encoder on the committed value and the style. -/
def rendered {G : Type} (encoder : String → Int → String → String → G) (s : State) :
    Option G :=
  if s.qrValue != "" then some (encoder s.qrValue s.qrSize s.qrColor s.qrBgColor)
  else none

/-! ## Steps and reachable states -/

/-- Everything that can happen to the page. -/
inductive Action where
  | setInputText (text : String)
  | setAutoGenerate (b : Bool)
  | generateQRCode
  | resetFields
  | setQrColor (c : String)
  | setQrBgColor (c : String)
  | setQrSize (n : Int)
  | setUsageModalOpen (b : Bool)
  | copyInputText (writeOk : Bool)
  | downloadQRCodeSVG (svg : Option String)
  | downloadQRCode (toPng : Settled String)
  | copyQRCode (toPng : Settled String) (writeOk : Bool)
  | shareQRCode (toPng : Settled String) (env : ShareEnv)
  | advance (dt : Nat)
  deriving DecidableEq, Repr

/-- The state after one action. -/
def step (a : Action) (s : State) : State :=
  match a with
  | .setInputText text => setInputText text s
  | .setAutoGenerate b => setAutoGenerate b s
  | .generateQRCode => generateQRCode s
  | .resetFields => resetFields s
  | .setQrColor c => setQrColor c s
  | .setQrBgColor c => setQrBgColor c s
  | .setQrSize n => setQrSize n s
  | .setUsageModalOpen b => setUsageModalOpen b s
  | .copyInputText ok => copyInputText ok s
  | .downloadQRCodeSVG svg => downloadQRCodeSVG svg s
  | .downloadQRCode toPng => downloadQRCode toPng s
  | .copyQRCode toPng ok => copyQRCode toPng ok s
  | .shareQRCode toPng env => shareQRCode toPng env s
  | .advance dt => advance dt s

/-- The state after a list of actions, first action first. -/
def run (as : List Action) (s : State) : State :=
  as.foldl (fun st a => step a st) s

/-- What the controls can deliver: the range input of lines 257-264 only
yields integers from 64 to 256. -/
def Action.deliverable : Action → Prop
  | .setQrSize n => 64 ≤ n ∧ n ≤ 256
  | _ => True

/-- The states the page can be in. -/
inductive Reachable : State → Prop where
  | mount (stored : String) : Reachable (mount stored)
  | step {s : State} (a : Action) (hs : Reachable s) (ha : a.deliverable) :
      Reachable (step a s)

/-- The timer discipline of the auto-generate effect: every pending
auto-generate timer belongs to the last effect run, was created with
auto-generate on and carries the current input; there is at most one. -/
structure Inv (s : State) : Prop where
  owned : ∀ t ∈ s.timers, ∀ v, t.callback = .commit v →
    s.autoGenerate = true ∧ v = s.inputText ∧ s.cleanup = some t.id
  single : s.timers.countP Timer.isCommit ≤ 1

/-- Actions that write the input text: typing and the reset button. -/
def Action.writesInput : Action → Bool
  | .setInputText _ => true
  | .resetFields => true
  | _ => false

/-- Actions excluded from a trace with auto-generate off and no manual
trigger: the Generate button, the Reset button, switching the toggle on. -/
def Action.manualOrSwitchOn : Action → Bool
  | .generateQRCode => true
  | .resetFields => true
  | .setAutoGenerate b => b
  | _ => false

/-- Actions that touch neither the input, the flag nor the committed value:
style and modal setters and the copy, download and share operations. -/
def Action.onlyFeedback : Action → Bool
  | .setQrColor _ => true
  | .setQrBgColor _ => true
  | .setQrSize _ => true
  | .setUsageModalOpen _ => true
  | .copyInputText _ => true
  | .downloadQRCodeSVG _ => true
  | .downloadQRCode _ => true
  | .copyQRCode _ _ => true
  | .shareQRCode _ _ => true
  | _ => false

/-- A burst of typing after a first change: each entry gives the milliseconds
since the previous change and the new text of the input. -/
def typeBurst : List (Nat × String) → State → State
  | [], s => s
  | (dt, text) :: rest, s => typeBurst rest (setInputText text (advance dt s))

/-- The page right after an input change with auto-generate on: the timer
discipline holds, the flag is on, and an auto-generate timer is pending with
its full delay ahead. -/
structure Armed (s : State) : Prop where
  inv : Inv s
  flagOn : s.autoGenerate = true
  fresh : ∀ t ∈ s.timers, t.isCommit = true → t.remaining = debounceMs
  pending : ∃ t ∈ s.timers, t.isCommit = true

/-! ## The timer queue -/

theorem fireAll_nil (s : State) : fireAll [] s = s := rfl

theorem fireAll_cons (t : Timer) (l : List Timer) (s : State) :
    fireAll (t :: l) s = fireAll l (fire s t) := rfl

theorem fire_frame (s : State) (t : Timer) :
    (fire s t).inputText = s.inputText ∧ (fire s t).autoGenerate = s.autoGenerate ∧
    (fire s t).qrColor = s.qrColor ∧ (fire s t).qrBgColor = s.qrBgColor ∧
    (fire s t).qrSize = s.qrSize ∧ (fire s t).timers = s.timers ∧
    (fire s t).cleanup = s.cleanup ∧ (fire s t).nextId = s.nextId ∧
    (fire s t).usageModalOpen = s.usageModalOpen ∧ (fire s t).downloads = s.downloads ∧
    (fire s t).shareCalls = s.shareCalls ∧ (fire s t).console = s.console := by
  unfold fire
  split <;> simp

theorem fireAll_frame (l : List Timer) (s : State) :
    (fireAll l s).inputText = s.inputText ∧ (fireAll l s).autoGenerate = s.autoGenerate ∧
    (fireAll l s).qrColor = s.qrColor ∧ (fireAll l s).qrBgColor = s.qrBgColor ∧
    (fireAll l s).qrSize = s.qrSize ∧ (fireAll l s).timers = s.timers ∧
    (fireAll l s).cleanup = s.cleanup ∧ (fireAll l s).nextId = s.nextId ∧
    (fireAll l s).usageModalOpen = s.usageModalOpen ∧ (fireAll l s).downloads = s.downloads ∧
    (fireAll l s).shareCalls = s.shareCalls ∧ (fireAll l s).console = s.console := by
  induction l generalizing s with
  | nil => simp [fireAll_nil]
  | cons t l ih =>
    rw [fireAll_cons]
    obtain ⟨h1, h2, h3, h4, h5, h6, h7, h8, h9, h10, h11, h12⟩ := ih (fire s t)
    obtain ⟨g1, g2, g3, g4, g5, g6, g7, g8, g9, g10, g11, g12⟩ := fire_frame s t
    exact ⟨h1.trans g1, h2.trans g2, h3.trans g3, h4.trans g4, h5.trans g5, h6.trans g6,
      h7.trans g7, h8.trans g8, h9.trans g9, h10.trans g10, h11.trans g11, h12.trans g12⟩

theorem fireAll_commits (l : List Timer) (s : State) :
    (fireAll l s).commits = s.commits + l.countP Timer.isCommit := by
  induction l generalizing s with
  | nil => simp [fireAll_nil]
  | cons t l ih =>
    rw [fireAll_cons, ih]
    obtain ⟨i, r, c⟩ := t
    cases c with
    | commit w => simp [fire, Timer.isCommit, List.countP_cons]; omega
    | dismiss => simp [fire, Timer.isCommit, List.countP_cons]

theorem fireAll_qrValue (l : List Timer) (s : State) (v : String)
    (hv : ∀ t ∈ l, ∀ w, t.callback = .commit w → w = v) :
    (fireAll l s).qrValue = if l.any Timer.isCommit then v else s.qrValue := by
  induction l generalizing s with
  | nil => simp [fireAll_nil]
  | cons t l ih =>
    rw [fireAll_cons, ih _ (fun u hu => hv u (List.mem_cons_of_mem _ hu))]
    obtain ⟨i, r, c⟩ := t
    cases c with
    | commit w =>
      have hw : w = v := hv ⟨i, r, .commit w⟩ (List.mem_cons_self _ _) w rfl
      simp [fire, Timer.isCommit, hw]
    | dismiss => simp [fire, Timer.isCommit]

theorem fireAll_toastMsg (l : List Timer) (s : State) :
    (fireAll l s).toastMsg = if l.any Timer.isDismiss then "" else s.toastMsg := by
  induction l generalizing s with
  | nil => simp [fireAll_nil]
  | cons t l ih =>
    rw [fireAll_cons, ih]
    obtain ⟨i, r, c⟩ := t
    cases c <;> simp [fire, Timer.isDismiss]

theorem dueTimers_perm (dt : Nat) (s : State) :
    (dueTimers dt s).Perm (s.timers.filter (fun t => decide (t.remaining ≤ dt))) :=
  List.perm_insertionSort _ _

theorem mem_dueTimers {dt : Nat} {s : State} {t : Timer} :
    t ∈ dueTimers dt s ↔ t ∈ s.timers ∧ t.remaining ≤ dt := by
  rw [(dueTimers_perm dt s).mem_iff]
  simp [List.mem_filter]

theorem mem_laterTimers {dt : Nat} {s : State} {t : Timer} :
    t ∈ laterTimers dt s ↔
      ∃ u ∈ s.timers, dt < u.remaining ∧ t = { u with remaining := u.remaining - dt } := by
  unfold laterTimers
  simp only [List.mem_map, List.mem_filter]
  constructor
  · rintro ⟨u, ⟨hu, hd⟩, rfl⟩
    exact ⟨u, hu, by simpa using hd, rfl⟩
  · rintro ⟨u, hu, hd, rfl⟩
    exact ⟨u, ⟨hu, by simpa using hd⟩, rfl⟩

theorem advance_frame (dt : Nat) (s : State) :
    (advance dt s).inputText = s.inputText ∧ (advance dt s).autoGenerate = s.autoGenerate ∧
    (advance dt s).qrColor = s.qrColor ∧ (advance dt s).qrBgColor = s.qrBgColor ∧
    (advance dt s).qrSize = s.qrSize ∧ (advance dt s).timers = laterTimers dt s ∧
    (advance dt s).cleanup = s.cleanup ∧ (advance dt s).nextId = s.nextId ∧
    (advance dt s).usageModalOpen = s.usageModalOpen ∧ (advance dt s).downloads = s.downloads ∧
    (advance dt s).shareCalls = s.shareCalls ∧ (advance dt s).console = s.console :=
  fireAll_frame _ _

theorem advance_commits (dt : Nat) (s : State) :
    (advance dt s).commits =
      s.commits + (s.timers.filter (fun t => decide (t.remaining ≤ dt))).countP Timer.isCommit := by
  unfold advance
  rw [fireAll_commits, (dueTimers_perm dt s).countP_eq]

theorem advance_toastMsg (dt : Nat) (s : State) :
    (advance dt s).toastMsg =
      if ∃ t ∈ s.timers, t.isDismiss = true ∧ t.remaining ≤ dt then "" else s.toastMsg := by
  unfold advance
  rw [fireAll_toastMsg]
  have : (dueTimers dt s).any Timer.isDismiss = true ↔
      ∃ t ∈ s.timers, t.isDismiss = true ∧ t.remaining ≤ dt := by
    simp only [List.any_eq_true, mem_dueTimers]
    constructor
    · rintro ⟨t, ⟨h1, h2⟩, h3⟩; exact ⟨t, h1, h3, h2⟩
    · rintro ⟨t, h1, h3, h2⟩; exact ⟨t, ⟨h1, h2⟩, h3⟩
  by_cases h : ∃ t ∈ s.timers, t.isDismiss = true ∧ t.remaining ≤ dt
  · rw [if_pos h, if_pos (this.mpr h)]
  · rw [if_neg h, if_neg (fun h2 => h (this.mp h2))]

theorem advance_qrValue (dt : Nat) (s : State) (v : String)
    (hv : ∀ t ∈ s.timers, ∀ w, t.callback = .commit w → w = v) :
    (advance dt s).qrValue =
      if ∃ t ∈ s.timers, t.isCommit = true ∧ t.remaining ≤ dt then v else s.qrValue := by
  unfold advance
  rw [fireAll_qrValue _ _ v (fun t ht w hw => hv t (mem_dueTimers.mp ht).1 w hw)]
  have : (dueTimers dt s).any Timer.isCommit = true ↔
      ∃ t ∈ s.timers, t.isCommit = true ∧ t.remaining ≤ dt := by
    simp only [List.any_eq_true, mem_dueTimers]
    constructor
    · rintro ⟨t, ⟨h1, h2⟩, h3⟩; exact ⟨t, h1, h3, h2⟩
    · rintro ⟨t, h1, h3, h2⟩; exact ⟨t, ⟨h1, h2⟩, h3⟩
  by_cases h : ∃ t ∈ s.timers, t.isCommit = true ∧ t.remaining ≤ dt
  · rw [if_pos h, if_pos (this.mpr h)]
  · rw [if_neg h, if_neg (fun h2 => h (this.mp h2))]

theorem isCommit_iff (t : Timer) : t.isCommit = true ↔ ∃ v, t.callback = .commit v := by
  obtain ⟨i, r, c⟩ := t
  cases c <;> simp [Timer.isCommit]

theorem Inv.congr {s s' : State} (h : Inv s) (ht : s'.timers = s.timers)
    (ha : s'.autoGenerate = s.autoGenerate) (hi : s'.inputText = s.inputText)
    (hc : s'.cleanup = s.cleanup) : Inv s' := by
  constructor
  · intro t htm v hv
    rw [ht] at htm
    rw [ha, hi, hc]
    exact h.owned t htm v hv
  · rw [ht]
    exact h.single

theorem runCleanup_frame (s : State) :
    (runCleanup s).inputText = s.inputText ∧ (runCleanup s).autoGenerate = s.autoGenerate ∧
    (runCleanup s).qrValue = s.qrValue ∧ (runCleanup s).commits = s.commits ∧
    (runCleanup s).toastMsg = s.toastMsg ∧ (runCleanup s).qrSize = s.qrSize ∧
    (runCleanup s).qrColor = s.qrColor ∧ (runCleanup s).qrBgColor = s.qrBgColor := by
  unfold runCleanup
  split <;> simp [clearTimeout]

theorem runCleanup_no_commit {s : State}
    (h : ∀ t ∈ s.timers, ∀ v, t.callback = .commit v → s.cleanup = some t.id) :
    ∀ t ∈ (runCleanup s).timers, t.isCommit = false := by
  intro t ht
  cases hc : t.isCommit with
  | false => rfl
  | true =>
    exfalso
    obtain ⟨v, hv⟩ := (isCommit_iff t).mp hc
    unfold runCleanup at ht
    split at ht
    · rename_i k hk
      simp only [clearTimeout, List.mem_filter] at ht
      have := h t ht.1 v hv
      rw [hk] at this
      simp at ht
      exact ht.2 (Option.some.inj this).symm
    · rename_i hk
      have := h t ht v hv
      rw [hk] at this
      cases this

theorem Inv_runEffect {s : State} (h : ∀ t ∈ s.timers, t.isCommit = false) :
    Inv (runEffect s) := by
  have h0 : s.timers.countP Timer.isCommit = 0 := by
    rw [List.countP_eq_zero]
    intro t ht
    simp [h t ht]
  unfold runEffect
  split
  · rename_i hflag
    constructor
    · intro t ht v hv
      simp only [setTimeout, List.mem_append, List.mem_singleton] at ht
      rcases ht with ht | rfl
      · have := h t ht
        rw [(isCommit_iff t).mpr ⟨v, hv⟩] at this
        cases this
      · simp only [Callback.commit.injEq] at hv
        exact ⟨hflag, hv.symm, rfl⟩
    · simp [setTimeout, List.countP_append, h0, Timer.isCommit]
  · constructor
    · intro t ht v hv
      have := h t ht
      rw [(isCommit_iff t).mpr ⟨v, hv⟩] at this
      cases this
    · simp [h0]

theorem Inv_rerender {old new : State} (h : Inv old) (ht : new.timers = old.timers)
    (hc : new.cleanup = old.cleanup) : Inv (rerender old new) := by
  unfold rerender
  split
  · apply Inv_runEffect
    apply runCleanup_no_commit
    intro t htm v hv
    rw [hc]
    exact (h.owned t (ht ▸ htm) v hv).2.2
  · rename_i hd
    push_neg at hd
    exact h.congr ht hd.2.symm hd.1.symm hc

theorem Inv_setTimeout_dismiss {s : State} (d : Nat) (h : Inv s) :
    Inv (setTimeout .dismiss d s) := by
  constructor
  · intro t ht v hv
    simp only [setTimeout, List.mem_append, List.mem_singleton] at ht
    rcases ht with ht | rfl
    · exact h.owned t ht v hv
    · cases hv
  · have := h.single
    simpa [setTimeout, List.countP_append, Timer.isCommit] using this

theorem Inv_showToast {s : State} (msg : String) (h : Inv s) : Inv (showToast msg s) :=
  Inv_setTimeout_dismiss _ (Inv_rerender h rfl rfl)

theorem Inv_advance {s : State} (dt : Nat) (h : Inv s) : Inv (advance dt s) := by
  obtain ⟨hi, ha, -, -, -, ht, hc, -⟩ := advance_frame dt s
  constructor
  · intro t htm v hv
    rw [ht, mem_laterTimers] at htm
    obtain ⟨u, hu, -, rfl⟩ := htm
    rw [hi, ha, hc]
    exact h.owned u hu v hv
  · rw [ht]
    unfold laterTimers
    rw [List.countP_map]
    have hsub := (@List.filter_sublist Timer (fun t : Timer => !decide (t.remaining ≤ dt))
      s.timers).countP_le (Timer.isCommit ∘ fun t => { t with remaining := t.remaining - dt })
    have heq : (Timer.isCommit ∘ fun t : Timer => { t with remaining := t.remaining - dt })
        = Timer.isCommit := by
      funext t
      simp [Timer.isCommit]
    rw [heq] at hsub ⊢
    exact le_trans hsub h.single

theorem Inv_mount (stored : String) : Inv (mount stored) := by
  unfold mount
  apply Inv_runEffect
  intro t ht
  cases ht

theorem export_frame (toPng : Settled String) (s : State) :
    (exportQRCodeAsPNG toPng s).2.timers = s.timers ∧
    (exportQRCodeAsPNG toPng s).2.cleanup = s.cleanup ∧
    (exportQRCodeAsPNG toPng s).2.autoGenerate = s.autoGenerate ∧
    (exportQRCodeAsPNG toPng s).2.inputText = s.inputText ∧
    (exportQRCodeAsPNG toPng s).2.qrValue = s.qrValue ∧
    (exportQRCodeAsPNG toPng s).2.commits = s.commits ∧
    (exportQRCodeAsPNG toPng s).2.toastMsg = s.toastMsg ∧
    (exportQRCodeAsPNG toPng s).2.qrSize = s.qrSize ∧
    (exportQRCodeAsPNG toPng s).2.downloads = s.downloads ∧
    (exportQRCodeAsPNG toPng s).2.shareCalls = s.shareCalls := by
  unfold exportQRCodeAsPNG
  split
  · simp
  · split <;> simp

theorem Inv_export {s : State} (toPng : Settled String) (h : Inv s) :
    Inv (exportQRCodeAsPNG toPng s).2 := by
  obtain ⟨h1, h2, h3, h4, -⟩ := export_frame toPng s
  exact h.congr h1 h3 h4 h2

theorem Inv_step {s : State} (a : Action) (h : Inv s) : Inv (step a s) := by
  cases a with
  | setInputText text => exact Inv_rerender h rfl rfl
  | setAutoGenerate b => exact Inv_rerender h rfl rfl
  | generateQRCode => exact Inv_rerender h rfl rfl
  | resetFields => exact Inv_rerender h rfl rfl
  | setQrColor c => exact Inv_rerender h rfl rfl
  | setQrBgColor c => exact Inv_rerender h rfl rfl
  | setQrSize n => exact Inv_rerender h rfl rfl
  | setUsageModalOpen b => exact Inv_rerender h rfl rfl
  | copyInputText ok =>
    simp only [step, copyInputText]
    split
    · exact Inv_showToast _ (h.congr rfl rfl rfl rfl)
    · exact Inv_showToast _ (h.congr rfl rfl rfl rfl)
  | downloadQRCodeSVG svg =>
    simp only [step, downloadQRCodeSVG]
    split
    · split
      · exact Inv_showToast _ (h.congr rfl rfl rfl rfl)
      · exact h
    · exact h
  | downloadQRCode toPng =>
    simp only [step, downloadQRCode]
    split
    · exact Inv_showToast _ ((Inv_export toPng h).congr rfl rfl rfl rfl)
    · exact Inv_export toPng h
  | copyQRCode toPng ok =>
    simp only [step, copyQRCode]
    split
    · split
      · exact Inv_showToast _ ((Inv_export toPng h).congr rfl rfl rfl rfl)
      · exact Inv_showToast _ ((Inv_export toPng h).congr rfl rfl rfl rfl)
    · exact Inv_export toPng h
  | shareQRCode toPng env =>
    simp only [step, shareQRCode]
    split
    · split
      · exact (Inv_export toPng h).congr rfl rfl rfl rfl
      · split
        · split
          · exact Inv_showToast _ ((Inv_export toPng h).congr rfl rfl rfl rfl)
          · exact (Inv_export toPng h).congr rfl rfl rfl rfl
        · exact Inv_showToast _ (Inv_export toPng h)
    · exact Inv_export toPng h
  | advance dt => exact Inv_advance dt h

theorem Inv_of_reachable {s : State} (h : Reachable s) : Inv s := by
  induction h with
  | mount stored => exact Inv_mount stored
  | step a _ _ ih => exact Inv_step a ih

theorem Inv_run {s : State} (as : List Action) (h : Inv s) : Inv (run as s) := by
  induction as generalizing s with
  | nil => exact h
  | cons a as ih => exact ih (Inv_step a h)

/-! ## Frame lemmas -/

@[simp]
theorem rerender_inputText (old new : State) :
    (rerender old new).inputText = new.inputText := by
  unfold rerender runEffect runCleanup
  (repeat' split) <;> simp [setTimeout, clearTimeout]

@[simp]
theorem rerender_qrValue (old new : State) :
    (rerender old new).qrValue = new.qrValue := by
  unfold rerender runEffect runCleanup
  (repeat' split) <;> simp [setTimeout, clearTimeout]

@[simp]
theorem rerender_toastMsg (old new : State) :
    (rerender old new).toastMsg = new.toastMsg := by
  unfold rerender runEffect runCleanup
  (repeat' split) <;> simp [setTimeout, clearTimeout]

@[simp]
theorem rerender_qrColor (old new : State) :
    (rerender old new).qrColor = new.qrColor := by
  unfold rerender runEffect runCleanup
  (repeat' split) <;> simp [setTimeout, clearTimeout]

@[simp]
theorem rerender_qrBgColor (old new : State) :
    (rerender old new).qrBgColor = new.qrBgColor := by
  unfold rerender runEffect runCleanup
  (repeat' split) <;> simp [setTimeout, clearTimeout]

@[simp]
theorem rerender_qrSize (old new : State) :
    (rerender old new).qrSize = new.qrSize := by
  unfold rerender runEffect runCleanup
  (repeat' split) <;> simp [setTimeout, clearTimeout]

@[simp]
theorem rerender_autoGenerate (old new : State) :
    (rerender old new).autoGenerate = new.autoGenerate := by
  unfold rerender runEffect runCleanup
  (repeat' split) <;> simp [setTimeout, clearTimeout]

@[simp]
theorem rerender_commits (old new : State) :
    (rerender old new).commits = new.commits := by
  unfold rerender runEffect runCleanup
  (repeat' split) <;> simp [setTimeout, clearTimeout]

@[simp]
theorem rerender_downloads (old new : State) :
    (rerender old new).downloads = new.downloads := by
  unfold rerender runEffect runCleanup
  (repeat' split) <;> simp [setTimeout, clearTimeout]

@[simp]
theorem rerender_shareCalls (old new : State) :
    (rerender old new).shareCalls = new.shareCalls := by
  unfold rerender runEffect runCleanup
  (repeat' split) <;> simp [setTimeout, clearTimeout]

@[simp]
theorem showToast_inputText (msg : String) (s : State) :
    (showToast msg s).inputText = s.inputText := by
  unfold showToast rerender runEffect runCleanup
  (repeat' split) <;> simp [setTimeout, clearTimeout]

@[simp]
theorem showToast_qrValue (msg : String) (s : State) :
    (showToast msg s).qrValue = s.qrValue := by
  unfold showToast rerender runEffect runCleanup
  (repeat' split) <;> simp [setTimeout, clearTimeout]

@[simp]
theorem showToast_qrColor (msg : String) (s : State) :
    (showToast msg s).qrColor = s.qrColor := by
  unfold showToast rerender runEffect runCleanup
  (repeat' split) <;> simp [setTimeout, clearTimeout]

@[simp]
theorem showToast_qrBgColor (msg : String) (s : State) :
    (showToast msg s).qrBgColor = s.qrBgColor := by
  unfold showToast rerender runEffect runCleanup
  (repeat' split) <;> simp [setTimeout, clearTimeout]

@[simp]
theorem showToast_qrSize (msg : String) (s : State) :
    (showToast msg s).qrSize = s.qrSize := by
  unfold showToast rerender runEffect runCleanup
  (repeat' split) <;> simp [setTimeout, clearTimeout]

@[simp]
theorem showToast_autoGenerate (msg : String) (s : State) :
    (showToast msg s).autoGenerate = s.autoGenerate := by
  unfold showToast rerender runEffect runCleanup
  (repeat' split) <;> simp [setTimeout, clearTimeout]

@[simp]
theorem showToast_commits (msg : String) (s : State) :
    (showToast msg s).commits = s.commits := by
  unfold showToast rerender runEffect runCleanup
  (repeat' split) <;> simp [setTimeout, clearTimeout]

@[simp]
theorem showToast_downloads (msg : String) (s : State) :
    (showToast msg s).downloads = s.downloads := by
  unfold showToast rerender runEffect runCleanup
  (repeat' split) <;> simp [setTimeout, clearTimeout]

@[simp]
theorem showToast_shareCalls (msg : String) (s : State) :
    (showToast msg s).shareCalls = s.shareCalls := by
  unfold showToast rerender runEffect runCleanup
  (repeat' split) <;> simp [setTimeout, clearTimeout]

@[simp]
theorem exportQRCodeAsPNG_inputText (toPng : Settled String) (s : State) :
    ((exportQRCodeAsPNG toPng s).2).inputText = s.inputText := by
  unfold exportQRCodeAsPNG
  (repeat' split) <;> simp

@[simp]
theorem exportQRCodeAsPNG_qrValue (toPng : Settled String) (s : State) :
    ((exportQRCodeAsPNG toPng s).2).qrValue = s.qrValue := by
  unfold exportQRCodeAsPNG
  (repeat' split) <;> simp

@[simp]
theorem exportQRCodeAsPNG_toastMsg (toPng : Settled String) (s : State) :
    ((exportQRCodeAsPNG toPng s).2).toastMsg = s.toastMsg := by
  unfold exportQRCodeAsPNG
  (repeat' split) <;> simp

@[simp]
theorem exportQRCodeAsPNG_qrColor (toPng : Settled String) (s : State) :
    ((exportQRCodeAsPNG toPng s).2).qrColor = s.qrColor := by
  unfold exportQRCodeAsPNG
  (repeat' split) <;> simp

@[simp]
theorem exportQRCodeAsPNG_qrBgColor (toPng : Settled String) (s : State) :
    ((exportQRCodeAsPNG toPng s).2).qrBgColor = s.qrBgColor := by
  unfold exportQRCodeAsPNG
  (repeat' split) <;> simp

@[simp]
theorem exportQRCodeAsPNG_qrSize (toPng : Settled String) (s : State) :
    ((exportQRCodeAsPNG toPng s).2).qrSize = s.qrSize := by
  unfold exportQRCodeAsPNG
  (repeat' split) <;> simp

@[simp]
theorem exportQRCodeAsPNG_autoGenerate (toPng : Settled String) (s : State) :
    ((exportQRCodeAsPNG toPng s).2).autoGenerate = s.autoGenerate := by
  unfold exportQRCodeAsPNG
  (repeat' split) <;> simp

@[simp]
theorem exportQRCodeAsPNG_commits (toPng : Settled String) (s : State) :
    ((exportQRCodeAsPNG toPng s).2).commits = s.commits := by
  unfold exportQRCodeAsPNG
  (repeat' split) <;> simp

@[simp]
theorem exportQRCodeAsPNG_downloads (toPng : Settled String) (s : State) :
    ((exportQRCodeAsPNG toPng s).2).downloads = s.downloads := by
  unfold exportQRCodeAsPNG
  (repeat' split) <;> simp

@[simp]
theorem exportQRCodeAsPNG_shareCalls (toPng : Settled String) (s : State) :
    ((exportQRCodeAsPNG toPng s).2).shareCalls = s.shareCalls := by
  unfold exportQRCodeAsPNG
  (repeat' split) <;> simp

@[simp]
theorem exportQRCodeAsPNG_timers (toPng : Settled String) (s : State) :
    (exportQRCodeAsPNG toPng s).2.timers = s.timers := by
  unfold exportQRCodeAsPNG
  (repeat' split) <;> simp

@[simp]
theorem exportQRCodeAsPNG_cleanup (toPng : Settled String) (s : State) :
    (exportQRCodeAsPNG toPng s).2.cleanup = s.cleanup := by
  unfold exportQRCodeAsPNG
  (repeat' split) <;> simp

@[simp]
theorem exportQRCodeAsPNG_nextId (toPng : Settled String) (s : State) :
    (exportQRCodeAsPNG toPng s).2.nextId = s.nextId := by
  unfold exportQRCodeAsPNG
  (repeat' split) <;> simp

@[simp]
theorem advance_inputText (dt : Nat) (s : State) :
    (advance dt s).inputText = s.inputText := (advance_frame dt s).1

@[simp]
theorem advance_autoGenerate (dt : Nat) (s : State) :
    (advance dt s).autoGenerate = s.autoGenerate := (advance_frame dt s).2.1

@[simp]
theorem advance_qrSize (dt : Nat) (s : State) :
    (advance dt s).qrSize = s.qrSize := (advance_frame dt s).2.2.2.2.1

@[simp]
theorem advance_timers (dt : Nat) (s : State) :
    (advance dt s).timers = laterTimers dt s := (advance_frame dt s).2.2.2.2.2.1

@[simp]
theorem advance_cleanup (dt : Nat) (s : State) :
    (advance dt s).cleanup = s.cleanup := (advance_frame dt s).2.2.2.2.2.2.1

theorem rerender_same (old new : State) (hi : old.inputText = new.inputText)
    (ha : old.autoGenerate = new.autoGenerate) : rerender old new = new := by
  unfold rerender
  rw [if_neg]
  rintro (h | h)
  · exact h hi
  · exact h ha

theorem generateQRCode_eq (s : State) :
    generateQRCode s = { s with qrValue := s.inputText, commits := s.commits + 1 } :=
  rerender_same _ _ rfl rfl

theorem showToast_eq (msg : String) (s : State) :
    showToast msg s =
      { s with toastMsg := msg, timers := s.timers ++ [⟨s.nextId, toastMs, .dismiss⟩],
               nextId := s.nextId + 1 } := by
  unfold showToast
  rw [rerender_same s { s with toastMsg := msg } rfl rfl]
  rfl

/-! ## Manual commit -/

/-- C1, as stated, fails: with auto-generate switched on over the stored input
"hi", pressing Generate commits "hi" but the 500 ms auto-generate timer armed
by the toggle is still in the queue afterwards. -/
theorem C1_manual_commit_keeps_timer :
    (generateQRCode (setAutoGenerate true (mount "hi"))).qrValue = "hi" ∧
    (generateQRCode (setAutoGenerate true (mount "hi"))).timers =
      [⟨0, 500, .commit "hi"⟩] ∧
    (generateQRCode (setAutoGenerate true (mount "hi"))).timers.any Timer.isCommit = true := by
  decide

/-- C1, amended: in every state, whatever the auto-generate flag, the manual
commit (generateQRCode) makes the committed value equal to the current input
text and counts as one commit; it leaves the input, the flag, the timer queue
and the effect cleanup exactly as they were, so a pending auto-generate timer
stays pending. -/
theorem C1_manual_commit (s : State) :
    (generateQRCode s).qrValue = s.inputText ∧
    (generateQRCode s).inputText = s.inputText ∧
    (generateQRCode s).autoGenerate = s.autoGenerate ∧
    (generateQRCode s).commits = s.commits + 1 ∧
    (generateQRCode s).timers = s.timers ∧
    (generateQRCode s).cleanup = s.cleanup := by
  rw [generateQRCode_eq]
  exact ⟨rfl, rfl, rfl, rfl, rfl, rfl⟩

/-! ## Reset -/

/-- C4: in every state the reset action (resetFields) yields input text "",
committed value "", size 128, foreground "#000000" and background "#ffffff",
and leaves the auto-generate flag and the transient message as they were. -/
theorem C4_reset (s : State) :
    (resetFields s).inputText = "" ∧ (resetFields s).qrValue = "" ∧
    (resetFields s).qrSize = 128 ∧ (resetFields s).qrColor = "#000000" ∧
    (resetFields s).qrBgColor = "#ffffff" ∧
    (resetFields s).autoGenerate = s.autoGenerate ∧
    (resetFields s).toastMsg = s.toastMsg := by
  simp [resetFields]

/-! ## Style and committed value -/

/-- C8: each style setter leaves the committed value and the input text
unchanged; each commit, be it the Generate button, a single auto-generate
callback or any passage of time with its timer expiries, leaves size,
foreground and background unchanged; and what is drawn is the encoder applied
to the committed value and the current size and colours (nothing is drawn for
an empty committed value). -/
theorem C8_style_commit_independent {G : Type}
    (encoder : String → Int → String → String → G) (s : State)
    (c : String) (n : Int) (dt : Nat) (text : String) (i r : Nat) :
    ((setQrColor c s).qrValue = s.qrValue ∧ (setQrColor c s).inputText = s.inputText) ∧
    ((setQrBgColor c s).qrValue = s.qrValue ∧ (setQrBgColor c s).inputText = s.inputText) ∧
    ((setQrSize n s).qrValue = s.qrValue ∧ (setQrSize n s).inputText = s.inputText) ∧
    ((generateQRCode s).qrSize = s.qrSize ∧ (generateQRCode s).qrColor = s.qrColor ∧
      (generateQRCode s).qrBgColor = s.qrBgColor) ∧
    ((fire s ⟨i, r, .commit text⟩).qrSize = s.qrSize ∧
      (fire s ⟨i, r, .commit text⟩).qrColor = s.qrColor ∧
      (fire s ⟨i, r, .commit text⟩).qrBgColor = s.qrBgColor) ∧
    ((advance dt s).qrSize = s.qrSize ∧ (advance dt s).qrColor = s.qrColor ∧
      (advance dt s).qrBgColor = s.qrBgColor) ∧
    (rendered encoder s =
      if s.qrValue = "" then none
      else some (encoder s.qrValue s.qrSize s.qrColor s.qrBgColor)) := by
  obtain ⟨-, -, h3, h4, h5, -⟩ := advance_frame dt s
  refine ⟨?_, ?_, ?_, ?_, ?_, ⟨h5, h3, h4⟩, ?_⟩
  · simp [setQrColor]
  · simp [setQrBgColor]
  · simp [setQrSize]
  · simp [generateQRCode]
  · simp [fire]
  · unfold rendered
    by_cases h : s.qrValue = "" <;> simp [h]

/-! ## Size bounds -/

theorem step_qrSize (a : Action) (s : State) :
    (step a s).qrSize =
      match a with
      | .setQrSize n => n
      | .resetFields => 128
      | _ => s.qrSize := by
  cases a <;>
    simp only [step, setInputText, setAutoGenerate, generateQRCode, resetFields, setQrColor,
      setQrBgColor, setQrSize, setUsageModalOpen, copyInputText, downloadQRCodeSVG,
      downloadQRCode, copyQRCode, shareQRCode] <;>
    (repeat' split) <;> simp

/-- C9: in every state reachable from the mounted page by the page's actions,
where each size change carries a value the range control can deliver (an
integer from 64 to 256), the size satisfies 64 ≤ size ≤ 256. -/
theorem C9_size_in_range (s : State) (h : Reachable s) :
    64 ≤ s.qrSize ∧ s.qrSize ≤ 256 := by
  induction h with
  | mount stored => simp [mount, runEffect]
  | step a _ ha ih =>
    rw [step_qrSize]
    cases a <;> first | exact ha | exact ih | simp

/-- C9 at a concrete state: after dragging the slider to 200 and typing. -/
theorem C9_size_in_range_witness :
    64 ≤ (step (.setInputText "a") (step (.setQrSize 200) (mount ""))).qrSize ∧
    (step (.setInputText "a") (step (.setQrSize 200) (mount ""))).qrSize ≤ 256 :=
  C9_size_in_range _
    (Reachable.step (.setInputText "a")
      (Reachable.step (.setQrSize 200) (Reachable.mount "") ⟨by decide, by decide⟩) trivial)

/-! ## Raster export and download -/

/-- C6, as stated, fails: with "hi" committed and drawn, a rejected raster
conversion makes the export return nothing and the download start no file, but
no message is shown and no dismissal timer is queued. -/
theorem C6_failed_download_shows_nothing :
    qrRefCurrent (generateQRCode (setInputText "hi" (mount ""))) = true ∧
    (exportQRCodeAsPNG .rejected (generateQRCode (setInputText "hi" (mount "")))).1 = none ∧
    (downloadQRCode .rejected (generateQRCode (setInputText "hi" (mount "")))).downloads = [] ∧
    (downloadQRCode .rejected (generateQRCode (setInputText "hi" (mount "")))).toastMsg = "" ∧
    (downloadQRCode .rejected (generateQRCode (setInputText "hi" (mount "")))).timers = [] := by
  decide

/-- C6, amended: when the raster conversion rejects or no graphic is mounted,
exportQRCodeAsPNG returns no artifact and downloadQRCode starts no download;
it reports nothing: the transient message and the timer queue stay as they
were. -/
theorem C6_failed_export_is_silent (s : State) (toPng : Settled String)
    (h : toPng = .rejected ∨ qrRefCurrent s = false) :
    (exportQRCodeAsPNG toPng s).1 = none ∧
    (downloadQRCode toPng s).downloads = s.downloads ∧
    (downloadQRCode toPng s).toastMsg = s.toastMsg ∧
    (downloadQRCode toPng s).timers = s.timers := by
  have h1 : (exportQRCodeAsPNG toPng s).1 = none := by
    unfold exportQRCodeAsPNG
    rcases h with rfl | h
    · split <;> rfl
    · simp [h]
  refine ⟨h1, ?_⟩
  unfold downloadQRCode
  simp [h1, truthy]

/-- C6 amended, at a concrete state: "hi" drawn, conversion rejected. -/
theorem C6_failed_export_is_silent_witness :
    (exportQRCodeAsPNG .rejected (generateQRCode (setInputText "hi" (mount "")))).1 = none ∧
    (downloadQRCode .rejected (generateQRCode (setInputText "hi" (mount "")))).downloads =
      (generateQRCode (setInputText "hi" (mount ""))).downloads ∧
    (downloadQRCode .rejected (generateQRCode (setInputText "hi" (mount "")))).toastMsg =
      (generateQRCode (setInputText "hi" (mount ""))).toastMsg ∧
    (downloadQRCode .rejected (generateQRCode (setInputText "hi" (mount "")))).timers =
      (generateQRCode (setInputText "hi" (mount ""))).timers :=
  C6_failed_export_is_silent _ .rejected (Or.inl rfl)

/-! ## Share -/

/-- C7, as stated, fails: with "hi" drawn and the raster export returning a
data URL, on a platform without the canShare capability where turning the data
URL into a file throws (fetch or blob, inside the try and before the canShare
test), the catch block only logs: the message is not "Sharing not supported."
but stays empty, no dismissal timer is queued and navigator.share is not
invoked. -/
theorem C7_unsupported_share_without_message :
    truthy (exportQRCodeAsPNG (.resolved "data:image/png;base64,AAAA")
      (generateQRCode (setInputText "hi" (mount "")))).1 = true ∧
    (shareQRCode (.resolved "data:image/png;base64,AAAA") ⟨false, none, true⟩
      (generateQRCode (setInputText "hi" (mount "")))).toastMsg = "" ∧
    (shareQRCode (.resolved "data:image/png;base64,AAAA") ⟨false, none, true⟩
      (generateQRCode (setInputText "hi" (mount "")))).toastMsg ≠
        "Sharing not supported." ∧
    (shareQRCode (.resolved "data:image/png;base64,AAAA") ⟨false, none, true⟩
      (generateQRCode (setInputText "hi" (mount "")))).timers = [] ∧
    (shareQRCode (.resolved "data:image/png;base64,AAAA") ⟨false, none, true⟩
      (generateQRCode (setInputText "hi" (mount "")))).shareCalls = 0 ∧
    (shareQRCode (.resolved "data:image/png;base64,AAAA") ⟨false, none, true⟩
      (generateQRCode (setInputText "hi" (mount "")))).console = ["Share failed"] := by
  decide

/-- C7, amended: for shareQRCode after a raster export that returned a usable
data URL.  Once the data URL has been turned into a file: without the canShare
capability, or when canShare refuses the file, the message becomes "Sharing
not supported." and navigator.share is not invoked; when navigator.share is
invoked and throws (an error or the user cancelling), the message and the
timer queue are unchanged; when it completes the message becomes "Shared!".
When turning the data URL into a file throws, nothing is set either.  A
message "Shared!" that was not there before only appears when the share was
invoked and completed. -/
theorem C7_share_feedback (s : State) (toPng : Settled String) (env : ShareEnv)
    (hexp : truthy (exportQRCodeAsPNG toPng s).1 = true) :
    (env.fetchOk = true → env.canShare ≠ some true →
      (shareQRCode toPng env s).toastMsg = "Sharing not supported." ∧
      (shareQRCode toPng env s).shareCalls = s.shareCalls) ∧
    (env.fetchOk = true → env.canShare = some true → env.shareResolves = false →
      (shareQRCode toPng env s).toastMsg = s.toastMsg ∧
      (shareQRCode toPng env s).timers = s.timers ∧
      (shareQRCode toPng env s).shareCalls = s.shareCalls + 1) ∧
    (env.fetchOk = true → env.canShare = some true → env.shareResolves = true →
      (shareQRCode toPng env s).toastMsg = "Shared!" ∧
      (shareQRCode toPng env s).shareCalls = s.shareCalls + 1) ∧
    (env.fetchOk = false →
      (shareQRCode toPng env s).toastMsg = s.toastMsg ∧
      (shareQRCode toPng env s).timers = s.timers ∧
      (shareQRCode toPng env s).shareCalls = s.shareCalls) ∧
    (s.toastMsg ≠ "Shared!" → (shareQRCode toPng env s).toastMsg = "Shared!" →
      env.fetchOk = true ∧ env.canShare = some true ∧ env.shareResolves = true) := by
  have hA : env.fetchOk = true → env.canShare ≠ some true →
      (shareQRCode toPng env s).toastMsg = "Sharing not supported." ∧
      (shareQRCode toPng env s).shareCalls = s.shareCalls := by
    intro hfile hc
    unfold shareQRCode
    simp [hexp, hfile, hc, showToast_eq]
  have hB : env.fetchOk = true → env.canShare = some true → env.shareResolves = false →
      (shareQRCode toPng env s).toastMsg = s.toastMsg ∧
      (shareQRCode toPng env s).timers = s.timers ∧
      (shareQRCode toPng env s).shareCalls = s.shareCalls + 1 := by
    intro hfile hc hr
    unfold shareQRCode
    simp [hexp, hfile, hc, hr]
  have hC : env.fetchOk = true → env.canShare = some true → env.shareResolves = true →
      (shareQRCode toPng env s).toastMsg = "Shared!" ∧
      (shareQRCode toPng env s).shareCalls = s.shareCalls + 1 := by
    intro hfile hc hr
    unfold shareQRCode
    simp [hexp, hfile, hc, hr, showToast_eq]
  have hD : env.fetchOk = false →
      (shareQRCode toPng env s).toastMsg = s.toastMsg ∧
      (shareQRCode toPng env s).timers = s.timers ∧
      (shareQRCode toPng env s).shareCalls = s.shareCalls := by
    intro hfile
    unfold shareQRCode
    simp [hexp, hfile]
  refine ⟨hA, hB, hC, hD, ?_⟩
  intro hne hres
  cases hfile : env.fetchOk with
  | false =>
    rw [(hD hfile).1] at hres
    exact absurd hres hne
  | true =>
    by_cases hc : env.canShare = some true
    · refine ⟨rfl, hc, ?_⟩
      cases hr : env.shareResolves with
      | true => rfl
      | false =>
        rw [(hB hfile hc hr).1] at hres
        exact absurd hres hne
    · rw [(hA hfile hc).1] at hres
      exact absurd hres (by decide)

/-- C7 amended, at a concrete state: "hi" drawn, export fine, the user
cancels the share sheet. -/
theorem C7_share_feedback_witness :
    (shareQRCode (.resolved "data:image/png;base64,AAAA") ⟨true, some true, false⟩
        (generateQRCode (setInputText "hi" (mount "")))).toastMsg = "" ∧
    (shareQRCode (.resolved "data:image/png;base64,AAAA") ⟨true, some true, false⟩
        (generateQRCode (setInputText "hi" (mount "")))).shareCalls = 1 :=
  have h := (C7_share_feedback (generateQRCode (setInputText "hi" (mount "")))
    (.resolved "data:image/png;base64,AAAA") ⟨true, some true, false⟩
    (by decide)).2.1 rfl rfl rfl
  ⟨h.1, h.2.2⟩

/-! ## Traces -/

theorem step_onlyFeedback (a : Action) (s : State) (h : a.onlyFeedback = true) :
    (step a s).inputText = s.inputText ∧ (step a s).autoGenerate = s.autoGenerate ∧
    (step a s).qrValue = s.qrValue ∧ (step a s).commits = s.commits ∧
    ((step a s).timers = s.timers ∨
      (step a s).timers = s.timers ++ [⟨s.nextId, toastMs, .dismiss⟩]) := by
  cases a <;> cases h
  all_goals
    simp only [step, setQrColor, setQrBgColor, setQrSize, setUsageModalOpen, copyInputText,
      downloadQRCodeSVG, downloadQRCode, copyQRCode, shareQRCode]
    (repeat' split) <;> simp [showToast_eq, rerender_same]

theorem runCleanup_timers_sub (s : State) :
    ∀ t ∈ (runCleanup s).timers, t ∈ s.timers := by
  intro t ht
  unfold runCleanup at ht
  split at ht
  · simp only [clearTimeout, List.mem_filter] at ht
    exact ht.1
  · exact ht

theorem runEffect_off {s : State} (h : s.autoGenerate = false) :
    runEffect s = { s with cleanup := none } := by
  unfold runEffect
  simp [h]

theorem rerender_timers_off (old new : State) (h : new.autoGenerate = false) :
    ∀ t ∈ (rerender old new).timers, t ∈ new.timers := by
  intro t ht
  unfold rerender at ht
  split at ht
  · rw [runEffect_off ((runCleanup_frame new).2.1.trans h)] at ht
    exact runCleanup_timers_sub new t ht
  · exact ht

theorem step_off {s : State} (a : Action) (hoff : s.autoGenerate = false)
    (hno : ∀ t ∈ s.timers, t.isCommit = false) (ha : a.manualOrSwitchOn = false) :
    (step a s).autoGenerate = false ∧ (∀ t ∈ (step a s).timers, t.isCommit = false) ∧
    (step a s).qrValue = s.qrValue ∧ (step a s).commits = s.commits := by
  by_cases hf : a.onlyFeedback = true
  · obtain ⟨-, h2, h3, h4, h5⟩ := step_onlyFeedback a s hf
    refine ⟨h2.trans hoff, ?_, h3, h4⟩
    intro t ht
    rcases h5 with h5 | h5
    · rw [h5] at ht
      exact hno t ht
    · rw [h5, List.mem_append, List.mem_singleton] at ht
      rcases ht with ht | rfl
      · exact hno t ht
      · rfl
  cases a with
  | setInputText text =>
    refine ⟨by simp [step, setInputText, hoff], ?_, by simp [step, setInputText],
      by simp [step, setInputText]⟩
    intro t ht
    exact hno t (rerender_timers_off s { s with inputText := text } hoff t ht)
  | setAutoGenerate b =>
    have hb : b = false := ha
    subst hb
    refine ⟨by simp [step, setAutoGenerate], ?_, by simp [step, setAutoGenerate],
      by simp [step, setAutoGenerate]⟩
    intro t ht
    exact hno t (rerender_timers_off s { s with autoGenerate := false } rfl t ht)
  | generateQRCode => cases ha
  | resetFields => cases ha
  | advance dt =>
    refine ⟨by simp [step, hoff], ?_, ?_, ?_⟩
    · intro t ht
      simp only [step, advance_timers, mem_laterTimers] at ht
      obtain ⟨u, hu, -, rfl⟩ := ht
      exact hno u hu
    · simp only [step]
      rw [advance_qrValue dt s s.qrValue, if_neg]
      · rintro ⟨t, ht, hc, -⟩
        rw [hno t ht] at hc
        cases hc
      · intro t ht w hw
        have := hno t ht
        rw [(isCommit_iff t).mpr ⟨w, hw⟩] at this
        cases this
    · simp only [step]
      rw [advance_commits, Nat.add_right_eq_self, List.countP_eq_zero]
      intro t ht
      simp [hno t (List.mem_filter.mp ht).1]
  | _ => exact absurd rfl hf

theorem run_cons (a : Action) (as : List Action) (s : State) :
    run (a :: as) s = run as (step a s) := rfl

theorem run_off {s : State} (as : List Action) (hoff : s.autoGenerate = false)
    (hno : ∀ t ∈ s.timers, t.isCommit = false)
    (has : ∀ a ∈ as, a.manualOrSwitchOn = false) :
    (run as s).autoGenerate = false ∧ (run as s).qrValue = s.qrValue ∧
    (run as s).commits = s.commits := by
  induction as generalizing s with
  | nil => exact ⟨hoff, rfl, rfl⟩
  | cons a as ih =>
    obtain ⟨h1, h2, h3, h4⟩ := step_off a hoff hno (has a (List.mem_cons_self _ _))
    obtain ⟨g1, g2, g3⟩ := ih h1 h2 (fun b hb => has b (List.mem_cons_of_mem _ hb))
    rw [run_cons]
    exact ⟨g1, g2.trans h3, g3.trans h4⟩

theorem no_commit_of_off {s : State} (h : Inv s) (hoff : s.autoGenerate = false) :
    ∀ t ∈ s.timers, t.isCommit = false := by
  intro t ht
  cases hc : t.isCommit with
  | false => rfl
  | true =>
    obtain ⟨v, hv⟩ := (isCommit_iff t).mp hc
    have := (h.owned t ht v hv).1
    rw [hoff] at this
    cases this

/-- C3: from every reachable state with the auto-generate flag off (also one
reached by switching the flag off while a timer was pending), every trace of
input changes, time passing, style changes and export operations that contains
no Generate press, no Reset and no switching on leaves the flag off, the
committed value unchanged and the number of commits unchanged. -/
theorem C3_no_commit_while_off (s : State) (hs : Reachable s)
    (hoff : s.autoGenerate = false) (as : List Action)
    (has : ∀ a ∈ as, a.manualOrSwitchOn = false) :
    (run as s).autoGenerate = false ∧ (run as s).qrValue = s.qrValue ∧
    (run as s).commits = s.commits :=
  run_off as hoff (no_commit_of_off (Inv_of_reachable hs) hoff) has

/-- C3 at a concrete trace: "old" is committed, the flag is switched on and off
again while its timer is pending, then the user types and ten seconds pass. -/
theorem C3_no_commit_while_off_witness :
    (run [.setInputText "new", .advance 10000, .setInputText "newer", .advance 10000]
      (step (.setAutoGenerate false) (step (.setAutoGenerate true)
        (step .generateQRCode (mount "old"))))).qrValue = "old" :=
  (C3_no_commit_while_off
    (step (.setAutoGenerate false) (step (.setAutoGenerate true)
      (step .generateQRCode (mount "old"))))
    (Reachable.step _ (Reachable.step _ (Reachable.step _ (Reachable.mount "old")
      trivial) trivial) trivial)
    rfl
    [.setInputText "new", .advance 10000, .setInputText "newer", .advance 10000]
    (by decide)).2.1

/-! ## The timer discipline -/

theorem step_synced {s : State} (a : Action) (h : Inv s) (hsync : s.qrValue = s.inputText)
    (ha : a.writesInput = false) :
    (step a s).inputText = s.inputText ∧ (step a s).qrValue = s.qrValue := by
  by_cases hf : a.onlyFeedback = true
  · obtain ⟨h1, -, h3, -⟩ := step_onlyFeedback a s hf
    exact ⟨h1, h3⟩
  cases a with
  | setInputText text => cases ha
  | resetFields => cases ha
  | setAutoGenerate b => simp [step, setAutoGenerate]
  | generateQRCode => simp [step, generateQRCode, hsync]
  | advance dt =>
    refine ⟨by simp [step], ?_⟩
    simp only [step]
    rw [advance_qrValue dt s s.inputText (fun t ht w hw => (h.owned t ht w hw).2.1)]
    split
    · exact hsync.symm
    · rfl
  | _ => exact absurd rfl hf

theorem run_synced {s : State} (as : List Action) (h : Inv s)
    (hsync : s.qrValue = s.inputText) (has : ∀ a ∈ as, a.writesInput = false) :
    (run as s).qrValue = s.qrValue := by
  induction as generalizing s with
  | nil => rfl
  | cons a as ih =>
    obtain ⟨h1, h2⟩ := step_synced a h hsync (has a (List.mem_cons_self _ _))
    rw [run_cons, ih (Inv_step a h) (by rw [h1, h2, hsync])
      (fun b hb => has b (List.mem_cons_of_mem _ hb)), h2]

/-- C10: in every reachable state at most one auto-generate timer is pending;
each pending one was armed with the flag still on and will commit exactly the
current input text; hence after a manual commit, any run of actions and timer
expiries that contains no input change and no reset leaves the committed value
as the manual commit set it. -/
theorem C10_single_debounce_timer (s : State) (hs : Reachable s) :
    s.timers.countP Timer.isCommit ≤ 1 ∧
    (∀ t ∈ s.timers, ∀ v, t.callback = .commit v →
      s.autoGenerate = true ∧ v = s.inputText) ∧
    (∀ as : List Action, (∀ a ∈ as, a.writesInput = false) →
      (run as (generateQRCode s)).qrValue = (generateQRCode s).qrValue) := by
  have hinv := Inv_of_reachable hs
  refine ⟨hinv.single, fun t ht v hv => ⟨(hinv.owned t ht v hv).1, (hinv.owned t ht v hv).2.1⟩, ?_⟩
  intro as has
  have hg : Inv (generateQRCode s) := Inv_step .generateQRCode hinv
  exact run_synced as hg (by simp [generateQRCode]) has

/-- C10 at a concrete state: the flag is on and "abc" was typed 100 ms ago;
after Generate the pending timer expires without changing the committed
value. -/
theorem C10_single_debounce_timer_witness :
    (step (.advance 100) (step (.setInputText "abc")
      (step (.setAutoGenerate true) (mount "")))).timers.countP Timer.isCommit ≤ 1 ∧
    (run [.advance 400, .setAutoGenerate false, .advance 1000]
      (generateQRCode (step (.advance 100) (step (.setInputText "abc")
        (step (.setAutoGenerate true) (mount "")))))).qrValue =
      (generateQRCode (step (.advance 100) (step (.setInputText "abc")
        (step (.setAutoGenerate true) (mount ""))))).qrValue :=
  have h := C10_single_debounce_timer
    (step (.advance 100) (step (.setInputText "abc") (step (.setAutoGenerate true) (mount ""))))
    (Reachable.step _ (Reachable.step _ (Reachable.step _ (Reachable.mount "")
      trivial) trivial) trivial)
  ⟨h.1, h.2.2 [.advance 400, .setAutoGenerate false, .advance 1000] (by decide)⟩

/-! ## Toast -/

/-- C5, as stated, fails: "A" is shown, "B" is shown 1000 ms later; "B" is
visible at once and still 499 ms after its call, but 500 ms after its call,
1500 ms after the call for "A", the message is already cleared. -/
theorem C5_second_toast_cleared_early :
    (showToast "B" (advance 1000 (showToast "A" (mount "")))).toastMsg = "B" ∧
    (advance 499 (showToast "B" (advance 1000 (showToast "A" (mount ""))))).toastMsg = "B" ∧
    (advance 500 (showToast "B" (advance 1000 (showToast "A" (mount ""))))).toastMsg = "" := by
  decide

/-- C5, amended: with no dismissal timer pending beforehand, two showToast
calls less than 1.5 s apart leave the second message shown right after the
second call; it stays until 1.5 s after the first call and is cleared from
then on, so also 1.5 s after the second call: showToast cancels no timer and
the dismissal timer of the first call clears the second message. -/
theorem C5_toast_cleared_by_first_timer (s : State) (m1 m2 : String) (gap : Nat)
    (hidle : ∀ t ∈ s.timers, t.isDismiss = false) (hgap : gap < 1500) :
    (showToast m2 (advance gap (showToast m1 s))).toastMsg = m2 ∧
    (∀ dt, dt < 1500 - gap →
      (advance dt (showToast m2 (advance gap (showToast m1 s)))).toastMsg = m2) ∧
    (∀ dt, 1500 - gap ≤ dt →
      (advance dt (showToast m2 (advance gap (showToast m1 s)))).toastMsg = "") := by
  have hmsg : (showToast m2 (advance gap (showToast m1 s))).toastMsg = m2 := by
    rw [showToast_eq]
  have hmem : ∀ t, t ∈ (showToast m2 (advance gap (showToast m1 s))).timers ↔
      (∃ u ∈ s.timers, gap < u.remaining ∧ t = { u with remaining := u.remaining - gap }) ∨
      t = ⟨s.nextId, 1500 - gap, .dismiss⟩ ∨
      t = ⟨(advance gap (showToast m1 s)).nextId, 1500, .dismiss⟩ := by
    intro t
    rw [showToast_eq m2]
    simp only [advance_timers, List.mem_append, List.mem_singleton, mem_laterTimers]
    rw [showToast_eq m1]
    simp only [List.mem_append, List.mem_singleton, toastMs]
    constructor
    · rintro (⟨u, hu | rfl, hlt, rfl⟩ | rfl)
      · exact Or.inl ⟨u, hu, hlt, rfl⟩
      · exact Or.inr (Or.inl rfl)
      · exact Or.inr (Or.inr rfl)
    · rintro (⟨u, hu, hlt, rfl⟩ | rfl | rfl)
      · exact Or.inl ⟨u, Or.inl hu, hlt, rfl⟩
      · exact Or.inl ⟨⟨s.nextId, 1500, .dismiss⟩, Or.inr rfl, hgap, rfl⟩
      · exact Or.inr rfl
  refine ⟨hmsg, ?_, ?_⟩
  · intro dt hdt
    rw [advance_toastMsg, if_neg, hmsg]
    rintro ⟨t, ht, hd, hr⟩
    rcases (hmem t).mp ht with ⟨u, hu, -, rfl⟩ | rfl | rfl
    · have := hidle u hu
      simp only [Timer.isDismiss] at hd this
      rw [this] at hd
      cases hd
    · simp only at hr
      omega
    · simp only at hr
      omega
  · intro dt hdt
    rw [advance_toastMsg, if_pos]
    exact ⟨⟨s.nextId, 1500 - gap, .dismiss⟩, (hmem _).mpr (Or.inr (Or.inl rfl)), rfl, hdt⟩

/-- C5 amended, at a concrete state: "A", then "B" 1000 ms later, seen 1500 ms
after the call for "B". -/
theorem C5_toast_cleared_by_first_timer_witness :
    (showToast "B" (advance 1000 (showToast "A" (mount "")))).toastMsg = "B" ∧
    (advance 1500 (showToast "B" (advance 1000 (showToast "A" (mount ""))))).toastMsg = "" :=
  have h := C5_toast_cleared_by_first_timer (mount "") "A" "B" 1000 (by decide) (by decide)
  ⟨h.1, h.2.2 1500 (by decide)⟩

/-! ## Debounce -/

theorem armed_setInputText {s : State} (text : String) (h : Inv s)
    (hon : s.autoGenerate = true) (hne : s.inputText ≠ text) :
    Armed (setInputText text s) ∧ (setInputText text s).inputText = text ∧
    (setInputText text s).commits = s.commits ∧
    (setInputText text s).qrValue = s.qrValue := by
  refine ⟨?_, by simp [setInputText], by simp [setInputText], by simp [setInputText]⟩
  have hinv : Inv (setInputText text s) := Inv_rerender h rfl rfl
  have hno : ∀ t ∈ (runCleanup { s with inputText := text }).timers, t.isCommit = false :=
    runCleanup_no_commit (fun t ht v hv => (h.owned t ht v hv).2.2)
  have hon2 : (runCleanup { s with inputText := text }).autoGenerate = true :=
    (runCleanup_frame _).2.1.trans hon
  have heq : setInputText text s = runEffect (runCleanup { s with inputText := text }) := by
    unfold setInputText rerender
    rw [if_pos (Or.inl hne)]
  have htim : (setInputText text s).timers =
      (runCleanup { s with inputText := text }).timers ++
        [⟨(runCleanup { s with inputText := text }).nextId, debounceMs,
          .commit (runCleanup { s with inputText := text }).inputText⟩] := by
    rw [heq]
    unfold runEffect
    rw [if_pos hon2]
    rfl
  refine ⟨hinv, by simp [setInputText, hon], ?_, ?_⟩
  · intro t ht hc
    rw [htim, List.mem_append, List.mem_singleton] at ht
    rcases ht with ht | rfl
    · rw [hno t ht] at hc
      cases hc
    · rfl
  · refine ⟨⟨(runCleanup { s with inputText := text }).nextId, debounceMs,
      .commit (runCleanup { s with inputText := text }).inputText⟩, ?_, rfl⟩
    rw [htim]
    exact List.mem_append_right _ (List.mem_singleton_self _)

theorem armed_advance_lt {s : State} (dt : Nat) (h : Armed s) (hdt : dt < 500) :
    Inv (advance dt s) ∧ (advance dt s).autoGenerate = true ∧
    (advance dt s).inputText = s.inputText ∧ (advance dt s).commits = s.commits ∧
    (advance dt s).qrValue = s.qrValue := by
  have hnot : ¬ ∃ t ∈ s.timers, t.isCommit = true ∧ t.remaining ≤ dt := by
    rintro ⟨t, ht, hc, hr⟩
    have := h.fresh t ht hc
    simp only [debounceMs] at this
    omega
  refine ⟨Inv_advance dt h.inv, by simp [h.flagOn], by simp, ?_, ?_⟩
  · rw [advance_commits, Nat.add_right_eq_self, List.countP_eq_zero]
    intro t ht hc
    have hm := List.mem_filter.mp ht
    exact hnot ⟨t, hm.1, hc, by simpa using hm.2⟩
  · rw [advance_qrValue dt s s.inputText (fun t ht w hw => (h.inv.owned t ht w hw).2.1),
      if_neg hnot]

theorem armed_advance_ge {s : State} (quiet : Nat) (h : Armed s) (hq : 500 ≤ quiet) :
    (advance quiet s).commits = s.commits + 1 ∧ (advance quiet s).qrValue = s.inputText ∧
    (advance quiet s).inputText = s.inputText := by
  have hdue : ∃ t ∈ s.timers, t.isCommit = true ∧ t.remaining ≤ quiet := by
    obtain ⟨t, ht, hc⟩ := h.pending
    have := h.fresh t ht hc
    simp only [debounceMs] at this
    exact ⟨t, ht, hc, by omega⟩
  refine ⟨?_, ?_, by simp⟩
  · rw [advance_commits, List.countP_filter]
    have hcongr : s.timers.countP (fun t => t.isCommit && decide (t.remaining ≤ quiet)) =
        s.timers.countP Timer.isCommit := by
      apply List.countP_congr
      intro t ht
      constructor
      · intro hx
        simp only [Bool.and_eq_true] at hx
        exact hx.1
      · intro hc
        have := h.fresh t ht hc
        simp only [debounceMs] at this
        simp only [Bool.and_eq_true, decide_eq_true_eq]
        exact ⟨hc, by omega⟩
    rw [hcongr]
    have h1 := h.inv.single
    have h2 : 0 < s.timers.countP Timer.isCommit := List.countP_pos_iff.mpr h.pending
    omega
  · rw [advance_qrValue quiet s s.inputText (fun t ht w hw => (h.inv.owned t ht w hw).2.1),
      if_pos hdue]

theorem typeBurst_nil (s : State) : typeBurst [] s = s := rfl

theorem typeBurst_cons (c : Nat × String) (rest : List (Nat × String)) (s : State) :
    typeBurst (c :: rest) s = typeBurst rest (setInputText c.2 (advance c.1 s)) := rfl

theorem armed_typeBurst {s : State} (rest : List (Nat × String)) (h : Armed s)
    (hchg : List.Chain (fun a b => a ≠ b) s.inputText (rest.map Prod.snd))
    (hgap : ∀ c ∈ rest, c.1 < 500) :
    (∀ k dt, dt < 500 →
      (typeBurst (rest.take k) s).commits = s.commits ∧
      (typeBurst (rest.take k) s).qrValue = s.qrValue ∧
      (advance dt (typeBurst (rest.take k) s)).commits = s.commits ∧
      (advance dt (typeBurst (rest.take k) s)).qrValue = s.qrValue) ∧
    Armed (typeBurst rest s) ∧
    (typeBurst rest s).commits = s.commits ∧
    (typeBurst rest s).inputText = (rest.map Prod.snd).getLastD s.inputText := by
  induction rest generalizing s with
  | nil =>
    refine ⟨?_, h, rfl, rfl⟩
    intro k dt hdt
    obtain ⟨-, -, -, h4, h5⟩ := armed_advance_lt dt h hdt
    rw [List.take_nil, typeBurst_nil]
    exact ⟨rfl, rfl, h4, h5⟩
  | cons c rest ih =>
    rw [List.map_cons, List.chain_cons] at hchg
    obtain ⟨a1, a2, a3, a4, a5⟩ :=
      armed_advance_lt c.1 h (hgap c (List.mem_cons_self _ _))
    obtain ⟨b1, b2, b3, b4⟩ :=
      armed_setInputText c.2 a1 a2 (by rw [a3]; exact hchg.1)
    have hc : (setInputText c.2 (advance c.1 s)).commits = s.commits := b3.trans a4
    have hq : (setInputText c.2 (advance c.1 s)).qrValue = s.qrValue := b4.trans a5
    obtain ⟨i1, i2, i3, i4⟩ :=
      ih b1 (by rw [b2]; exact hchg.2) (fun d hd => hgap d (List.mem_cons_of_mem _ hd))
    refine ⟨?_, ?_, ?_, ?_⟩
    · intro k dt hdt
      cases k with
      | zero =>
        obtain ⟨-, -, -, h4, h5⟩ := armed_advance_lt dt h hdt
        rw [List.take_zero, typeBurst_nil]
        exact ⟨rfl, rfl, h4, h5⟩
      | succ k =>
        obtain ⟨j1, j2, j3, j4⟩ := i1 k dt hdt
        simp only [List.take_succ_cons, typeBurst_cons]
        exact ⟨j1.trans hc, j2.trans hq, j3.trans hc, j4.trans hq⟩
    · rw [typeBurst_cons]
      exact i2
    · rw [typeBurst_cons]
      exact i3.trans hc
    · rw [typeBurst_cons, i4, b2, List.map_cons, List.getLastD_cons]

/-- C2: from a reachable state with auto-generate on, take a first input
change and then any further changes, each a real change of the text and each
less than 500 ms after the previous one, followed by at least 500 ms with no
action.  No commit happens during the burst (after any number of the changes,
and at any time less than 500 ms after them, the commit count and the committed
value are those from before the burst); after the quiet period exactly one
commit has happened and the committed value is the last text of the burst,
which is also the input text. -/
theorem C2_burst_commits_once (s : State) (hs : Reachable s)
    (hon : s.autoGenerate = true) (text0 : String) (rest : List (Nat × String))
    (quiet : Nat)
    (hchg : List.Chain (fun a b => a ≠ b) s.inputText (text0 :: rest.map Prod.snd))
    (hgap : ∀ c ∈ rest, c.1 < 500) (hquiet : 500 ≤ quiet) :
    (∀ k dt, dt < 500 →
      (typeBurst (rest.take k) (setInputText text0 s)).commits = s.commits ∧
      (typeBurst (rest.take k) (setInputText text0 s)).qrValue = s.qrValue ∧
      (advance dt (typeBurst (rest.take k) (setInputText text0 s))).commits = s.commits ∧
      (advance dt (typeBurst (rest.take k) (setInputText text0 s))).qrValue = s.qrValue) ∧
    (advance quiet (typeBurst rest (setInputText text0 s))).commits = s.commits + 1 ∧
    (advance quiet (typeBurst rest (setInputText text0 s))).qrValue =
      (rest.map Prod.snd).getLastD text0 ∧
    (advance quiet (typeBurst rest (setInputText text0 s))).inputText =
      (rest.map Prod.snd).getLastD text0 := by
  rw [List.chain_cons] at hchg
  obtain ⟨b1, b2, b3, b4⟩ := armed_setInputText text0 (Inv_of_reachable hs) hon hchg.1
  obtain ⟨i1, i2, i3, i4⟩ := armed_typeBurst rest b1 (by rw [b2]; exact hchg.2) hgap
  obtain ⟨e1, e2, e3⟩ := armed_advance_ge quiet i2 hquiet
  rw [b2] at i4
  refine ⟨?_, ?_, ?_, ?_⟩
  · intro k dt hdt
    obtain ⟨j1, j2, j3, j4⟩ := i1 k dt hdt
    exact ⟨j1.trans b3, j2.trans b4, j3.trans b3, j4.trans b4⟩
  · rw [e1, i3, b3]
  · rw [e2, i4]
  · rw [e3, i4]

/-- C2 at a concrete burst: the flag is on over an empty input, the user types
"a", "ab" 100 ms later and "abc" 499 ms after that, then pauses 500 ms: one
commit, of "abc". -/
theorem C2_burst_commits_once_witness :
    (typeBurst [(100, "ab"), (499, "abc")]
      (setInputText "a" (step (.setAutoGenerate true) (mount "")))).commits = 0 ∧
    (advance 500 (typeBurst [(100, "ab"), (499, "abc")]
      (setInputText "a" (step (.setAutoGenerate true) (mount ""))))).commits = 1 ∧
    (advance 500 (typeBurst [(100, "ab"), (499, "abc")]
      (setInputText "a" (step (.setAutoGenerate true) (mount ""))))).qrValue = "abc" :=
  have h := C2_burst_commits_once (step (.setAutoGenerate true) (mount ""))
    (Reachable.step _ (Reachable.mount "") trivial) rfl "a" [(100, "ab"), (499, "abc")] 500
    (List.Chain.cons (by decide) (List.Chain.cons (by decide)
      (List.Chain.cons (by decide) List.Chain.nil)))
    (by decide) (by decide)
  ⟨(h.1 2 0 (by decide)).1, h.2.1, h.2.2.1⟩

end QRCodeGenerator
